import Mathlib

/-!
# Elastic-IP resource adapter (`resource_openstack_vpc_eip_v1.go`) and the
VPC endpoint resolver (`client_extensions.go`)

A shallow embedding of the two Go source files.

Modelling conventions.

* Go `string` values are Lean `String`s.  The only string computation in the
  sources is `strings.Replace` with the ASCII tokens "ecs", "vpc", "v2", "v1";
  on well-formed UTF-8 a byte-level search for an ASCII token and a
  code-point-level search find the same occurrences, so the replacement is
  computed on the list of code points.
* Go `int` values that are merely copied are `Int`.
* Durations are whole seconds (`Nat`).
* A remote API is a deterministic machine over an arbitrary state type `W`;
  every call made through the client is appended to a trace.
* A Go runtime fault (index out of range, type assertion on a nil interface
  value) is an explicit outcome.
-/

namespace VpcEip

/-! ## `strings.Replace` -/

/-- Position of the first occurrence of `old` in `s`, returned as the text
before the occurrence and the text after it (`strings.Index` followed by the
two slices `s[:j]` and `s[j+len(old):]`). -/
def splitFirst (old : List Char) : List Char → Option (List Char × List Char)
  | [] => if old = [] then some ([], []) else none
  | c :: cs =>
    if old.isPrefixOf (c :: cs) then some ([], (c :: cs).drop old.length)
    else match splitFirst old cs with
      | none => none
      | some (pre, post) => some (c :: pre, post)

/-- The loop of `strings.Replace` for a non-empty `old`: replaces the first `n`
non-overlapping occurrences, left to right. -/
def replaceLoop (old new : List Char) : Nat → List Char → List Char
  | 0, s => s
  | n + 1, s =>
    match splitFirst old s with
    | none => s
    | some (pre, post) => pre ++ new ++ replaceLoop old new n post

/-- The loop of `strings.Replace` for an empty `old`: `new` is inserted at the
start and then after each code point, at most `n` times. -/
def replaceEmpty (new : List Char) : Nat → List Char → List Char
  | 0, s => s
  | _ + 1, [] => new
  | n + 1, c :: cs => new ++ c :: replaceEmpty new n cs

/-- Go `strings.Replace(s, old, new, n)`; a negative `n` means no limit. -/
def stringsReplace (s old new : String) (n : Int) : String :=
  if old = new ∨ n = 0 then s
  else
    let k : Nat := if n < 0 then s.data.length + 1 else n.toNat
    if old.data = [] then String.mk (replaceEmpty new.data k s.data)
    else String.mk (replaceLoop old.data new.data k s.data)

/-! ## Endpoint resolver (`client_extensions.go`) -/

/-- The part of `gophercloud.ServiceClient` the sources use. -/
structure ServiceClient where
  Endpoint : String
  deriving DecidableEq, Repr

/-- `NewVpcServiceV1`.  `initClientOpts` is not part of the sources; its two
results (the client with the discovered endpoint, and the error) are taken as
parameters `sc` and `err`. -/
def NewVpcServiceV1 (sc : ServiceClient) (err : Option String) :
    ServiceClient × Option String :=
  let endpoint := sc.Endpoint
  let endpoint := stringsReplace endpoint "ecs" "vpc" 1
  let endpoint := stringsReplace endpoint "v2" "v1" 1
  ({ sc with Endpoint := endpoint }, err)

/-! ## Errors and outcomes -/

/-- Go `error` values that the sources can observe: the client library's 404
error (the only one tested by a type assertion), the poller's timeout, and any
other error, carried as its message. -/
inductive GoError where
  | ErrDefault404 (msg : String)
  | TimeoutError
  | errorString (msg : String)
  deriving DecidableEq, Repr

/-- The `Error()` method. -/
def GoError.Error : GoError → String
  | .ErrDefault404 msg => msg
  | .TimeoutError => "timeout while waiting for the expected state"
  | .errorString msg => msg

/-- The type assertion `err.(gophercloud.ErrDefault404)`. -/
def GoError.is404 : GoError → Bool
  | .ErrDefault404 _ => true
  | _ => false

deriving instance DecidableEq for Except

/-- `fmt.Errorf(ctx + ": %s", err)`. -/
def Errorf (ctx : String) (err : GoError) : GoError :=
  .errorString (ctx ++ ": " ++ err.Error)

/-- Go runtime faults reachable in the sources: an index expression past the end of a
slice, and the type assertion `x.(map[string]interface{})` on a nil interface value. -/
inductive Fault where
  | indexOutOfRange (index len : Nat)
  | nilInterfaceConversion
  deriving DecidableEq, Repr

/-- Result of a Go expression that either yields a value or faults. -/
inductive Eval (α : Type) where
  | ok (a : α)
  | fault (p : Fault)
  deriving DecidableEq, Repr

/-- What a lifecycle function hands back to the host: `nil`, an error, or a
runtime fault. -/
inductive Outcome where
  | nil
  | error (err : GoError)
  | fault (p : Fault)
  deriving DecidableEq, Repr

/-! ## Data model -/

/-- A block of the `publicip` list, as the `map[string]interface{}` the schema library hands
out: every key of the block's schema is present with a value of its declared type, so the
assertions `rawMap["type"].(string)` on its entries cannot fail. -/
structure PublicIPBlock where
  type : String
  ip_address : String
  port_id : String
  deriving DecidableEq, Repr

/-- A block of the `bandwidth` list, as the `map[string]interface{}` the schema library hands
out (every key present, with a value of its declared type). -/
structure BandwidthBlock where
  name : String
  size : Int
  share_type : String
  charge_mode : String
  deriving DecidableEq, Repr

/-- The `Timeouts` of the resource, in seconds. -/
structure ResourceTimeout where
  Create : Nat
  Delete : Nat
  deriving DecidableEq, Repr

/-- Keys accepted by `d.Timeout`. -/
inductive TimeoutKey where
  | TimeoutCreate
  | TimeoutDelete
  deriving DecidableEq, Repr

/-- Defaults declared by `resourceVpcEIPV1` (10 minutes each). -/
def resourceVpcEIPV1Timeouts : ResourceTimeout :=
  { Create := 10 * 60, Delete := 10 * 60 }

/-- The `schema.ResourceData` of this resource.  For each list attribute the
record keeps the prior state (`old_*`), the planned value (`new_*`, prior
state merged with the diff) and the value written by `d.Set` (`set_*`).
A list is the `[]interface{}` that `d.Get` returns: each element is either a
block (`some`) or the nil interface value (`none`), which the schema library
hands out for a block none of whose fields is set.
`timeouts` holds the effective timeouts (configured, else the defaults). -/
structure ResourceData where
  id : String
  old_publicip : List (Option PublicIPBlock)
  new_publicip : List (Option PublicIPBlock)
  set_publicip : Option (List (Option PublicIPBlock))
  old_bandwidth : List (Option BandwidthBlock)
  new_bandwidth : List (Option BandwidthBlock)
  set_bandwidth : Option (List (Option BandwidthBlock))
  value_specs : List (String × String)
  timeouts : ResourceTimeout
  deriving DecidableEq, Repr

namespace ResourceData

/-- `d.Id()`. -/
def Id (d : ResourceData) : String := d.id

/-- `d.SetId(v)`. -/
def SetId (d : ResourceData) (v : String) : ResourceData := { d with id := v }

/-- `d.Get("publicip")`. -/
def GetPublicip (d : ResourceData) : List (Option PublicIPBlock) :=
  d.set_publicip.getD d.new_publicip

/-- `d.Get("bandwidth")`. -/
def GetBandwidth (d : ResourceData) : List (Option BandwidthBlock) :=
  d.set_bandwidth.getD d.new_bandwidth

/-- `d.HasChange("publicip")`: prior state against planned value. -/
def HasChangePublicip (d : ResourceData) : Bool :=
  decide (d.old_publicip ≠ d.new_publicip)

/-- `d.HasChange("bandwidth")`. -/
def HasChangeBandwidth (d : ResourceData) : Bool :=
  decide (d.old_bandwidth ≠ d.new_bandwidth)

/-- `d.Set("publicip", v)`. -/
def SetPublicip (d : ResourceData) (v : List (Option PublicIPBlock)) : ResourceData :=
  { d with set_publicip := some v }

/-- `d.Set("bandwidth", v)`. -/
def SetBandwidth (d : ResourceData) (v : List (Option BandwidthBlock)) : ResourceData :=
  { d with set_bandwidth := some v }

/-- `d.Timeout(key)`. -/
def Timeout (d : ResourceData) : TimeoutKey → Nat
  | .TimeoutCreate => d.timeouts.Create
  | .TimeoutDelete => d.timeouts.Delete

end ResourceData

/-- Fields of `eips.PublicIp` read by the sources. -/
structure PublicIp where
  ID : String
  Status : String
  Type_ : String
  PublicAddress : String
  PortID : String
  BandwidthID : String
  BandwidthSize : Int
  BandwidthShareType : String
  deriving DecidableEq, Repr

/-- Fields of `bandwidths.BandWidth` read by the sources. -/
structure BandWidth where
  ID : String
  Name : String
  ChargeMode : String
  deriving DecidableEq, Repr

/-- `eips.PublicIpOpts`. -/
structure PublicIpOpts where
  Type_ : String
  Address : String
  deriving DecidableEq, Repr

/-- `eips.BandwidthOpts`. -/
structure BandwidthOpts where
  Name : String
  Size : Int
  ShareType : String
  ChargeMode : String
  deriving DecidableEq, Repr

/-- `eips.ApplyOpts`. -/
structure ApplyOpts where
  IP : PublicIpOpts
  Bandwidth : BandwidthOpts
  deriving DecidableEq, Repr

/-- `EIPCreateOpts`: the apply options together with the extra options. -/
structure EIPCreateOpts where
  ApplyOpts : ApplyOpts
  ValueSpecs : List (String × String)
  deriving DecidableEq, Repr

/-- `bandwidths.UpdateOpts`. -/
structure BandwidthUpdateOpts where
  Size : Int
  Name : String
  deriving DecidableEq, Repr

/-- `eips.UpdateOpts`. -/
structure EipUpdateOpts where
  PortID : String
  deriving DecidableEq, Repr

/-! ## Remote API -/

/-- A call made through the VPC client. -/
inductive Call where
  | eipsApply (opts : EIPCreateOpts)
  | eipsGet (id : String)
  | eipsUpdate (id : String) (opts : EipUpdateOpts)
  | eipsDelete (id : String)
  | bandwidthsGet (id : String)
  | bandwidthsUpdate (id : String) (opts : BandwidthUpdateOpts)
  deriving DecidableEq, Repr

/-- Calls that change the remote resource (everything but the two gets). -/
def Call.isMutating : Call → Bool
  | .eipsGet _ => false
  | .bandwidthsGet _ => false
  | _ => true

/-- Behaviour of the remote API: each endpoint answers from the current
remote state and moves to a next one. -/
structure Remote (W : Type) where
  apply : W → EIPCreateOpts → Except GoError PublicIp × W
  get : W → String → Except GoError PublicIp × W
  update : W → String → EipUpdateOpts → Except GoError PublicIp × W
  delete : W → String → Option GoError × W
  bwGet : W → String → Except GoError BandWidth × W
  bwUpdate : W → String → BandwidthUpdateOpts → Except GoError BandWidth × W

/-- Remote state together with the calls issued so far. -/
structure World (W : Type) where
  remote : W
  calls : List Call

variable {W : Type}

/-- `eips.Apply(vpcClient, createOpts).Extract()`. -/
def eipsApply (R : Remote W) (opts : EIPCreateOpts) (s : World W) :
    Except GoError PublicIp × World W :=
  ((R.apply s.remote opts).1, ⟨(R.apply s.remote opts).2, s.calls ++ [.eipsApply opts]⟩)

/-- `eips.Get(vpcClient, id).Extract()`. -/
def eipsGet (R : Remote W) (id : String) (s : World W) :
    Except GoError PublicIp × World W :=
  ((R.get s.remote id).1, ⟨(R.get s.remote id).2, s.calls ++ [.eipsGet id]⟩)

/-- `eips.Update(vpcClient, id, opts).Extract()`. -/
def eipsUpdate (R : Remote W) (id : String) (opts : EipUpdateOpts) (s : World W) :
    Except GoError PublicIp × World W :=
  ((R.update s.remote id opts).1,
    ⟨(R.update s.remote id opts).2, s.calls ++ [.eipsUpdate id opts]⟩)

/-- `eips.Delete(vpcClient, id).ExtractErr()`. -/
def eipsDelete (R : Remote W) (id : String) (s : World W) :
    Option GoError × World W :=
  ((R.delete s.remote id).1, ⟨(R.delete s.remote id).2, s.calls ++ [.eipsDelete id]⟩)

/-- `bandwidths.Get(vpcClient, id).Extract()`. -/
def bandwidthsGet (R : Remote W) (id : String) (s : World W) :
    Except GoError BandWidth × World W :=
  ((R.bwGet s.remote id).1, ⟨(R.bwGet s.remote id).2, s.calls ++ [.bandwidthsGet id]⟩)

/-- `bandwidths.Update(vpcClient, id, opts).Extract()`. -/
def bandwidthsUpdate (R : Remote W) (id : String) (opts : BandwidthUpdateOpts)
    (s : World W) : Except GoError BandWidth × World W :=
  ((R.bwUpdate s.remote id opts).1,
    ⟨(R.bwUpdate s.remote id opts).2, s.calls ++ [.bandwidthsUpdate id opts]⟩)

/-- The host-injected `meta`.  `config.vpcV1Client(GetRegion(d, config))` is
outside the sources; its result is taken as a parameter. -/
structure Config where
  vpcV1Client : Except GoError ServiceClient

/-- Everything a lifecycle function leaves behind. -/
structure Ret (W : Type) where
  out : Outcome
  d : ResourceData
  world : World W

/-! ## Helpers of the provider that are outside the sources -/

/-- Modelled from the spec: `MapValueSpecs` is missing from the sources; §6
describes "an open-ended extra-options map merged into the create request", so
the helper hands the `value_specs` map over unchanged. -/
def MapValueSpecs (d : ResourceData) : List (String × String) := d.value_specs

/-- Modelled from the spec: `CheckDeleted` is missing from the sources; §4.3
and §7 say that a not-found error is turned into "drop from host state"
(the ID is cleared and no error is returned) while any other error is
returned wrapped with the operation context. -/
def CheckDeleted (d : ResourceData) (err : GoError) (msg : String) (s : World W) : Ret W :=
  if err.is404 then ⟨.nil, d.SetId "", s⟩
  else ⟨.error (Errorf msg err), d, s⟩

/-! ## State poller -/

/-- The fields of `resource.StateChangeConf` set by the sources (the `Refresh`
function is passed separately). -/
structure StateChangeConf where
  Pending : List String
  Target : List String
  Timeout : Nat
  Delay : Nat
  MinTimeout : Nat
  deriving DecidableEq, Repr

/-- The triple returned by a `resource.StateRefreshFunc`. -/
structure RefreshResult where
  snapshot : Option PublicIp
  label : String
  err : Option GoError
  deriving DecidableEq, Repr

/-- Modelled from the spec: the wait loop of `WaitForState` is missing from the
sources; §4.4: "each tick invokes a status-refresh function ...; loop ends when
the label matches a target set, an error is returned, or the timeout elapses".
`now` is the time elapsed since the wait began; a tick that would start at or
after the deadline is not made and the wait fails with the timeout error.
Ticks are spaced by the minimum poll interval.  `fuel` bounds the number of
ticks. -/
def pollLoop (conf : StateChangeConf) (refresh : World W → RefreshResult × World W) :
    Nat → Nat → World W → Except GoError (Option PublicIp) × World W
  | 0, _, s => (.error .TimeoutError, s)
  | fuel + 1, now, s =>
    if conf.Timeout ≤ now then (.error .TimeoutError, s)
    else
      match (refresh s).1.err with
      | some err => (.error err, (refresh s).2)
      | none =>
        if (refresh s).1.label ∈ conf.Target then (.ok (refresh s).1.snapshot, (refresh s).2)
        else pollLoop conf refresh fuel (now + conf.MinTimeout) (refresh s).2

/-- Modelled from the spec: `stateConf.WaitForState()` (§4.4): "fixed initial
delay, minimum poll interval, and an overall timeout".  The first tick happens
after the initial delay.  With a minimum interval of at least one second no
more than `Timeout` ticks fit before the deadline, so that many are allowed. -/
def WaitForState (conf : StateChangeConf) (refresh : World W → RefreshResult × World W)
    (s : World W) : Except GoError (Option PublicIp) × World W :=
  pollLoop conf refresh conf.Timeout conf.Delay s

/-! ## Option mapper -/

/-- The index expression `xs[0]`. -/
def index0 {α : Type} : List α → Eval α
  | [] => .fault (.indexOutOfRange 0 0)
  | x :: _ => .ok x

/-- The type assertion `x.(map[string]interface{})`. -/
def assertMap {α : Type} : Option α → Eval α
  | none => .fault .nilInterfaceConversion
  | some m => .ok m

/-- The expression `xs[0].(map[string]interface{})`: index, then assert. -/
def firstMap {α : Type} (xs : List (Option α)) : Eval α :=
  match index0 xs with
  | .fault p => .fault p
  | .ok x => assertMap x

/-- `resourcePublicIP`. -/
def resourcePublicIP (d : ResourceData) : Eval PublicIpOpts :=
  let publicIPRaw := d.GetPublicip
  match firstMap publicIPRaw with
  | .fault p => .fault p
  | .ok rawMap => .ok { Type_ := rawMap.type, Address := rawMap.ip_address }

/-- `resourceBandWidth`. -/
def resourceBandWidth (d : ResourceData) : Eval BandwidthOpts :=
  let bandwidthRaw := d.GetBandwidth
  match firstMap bandwidthRaw with
  | .fault p => .fault p
  | .ok rawMap =>
    .ok { Name := rawMap.name, Size := rawMap.size,
          ShareType := rawMap.share_type, ChargeMode := rawMap.charge_mode }

/-- The composite literal `EIPCreateOpts{...}` built at the start of
`resourceVpcEIPV1Create`; its operands are evaluated in order. -/
def createOpts (d : ResourceData) : Eval EIPCreateOpts :=
  match resourcePublicIP d with
  | .fault p => .fault p
  | .ok ip =>
    match resourceBandWidth d with
    | .fault p => .fault p
    | .ok bw => .ok { ApplyOpts := { IP := ip, Bandwidth := bw }, ValueSpecs := MapValueSpecs d }

/-! ## Refresh functions -/

/-- `waitForEIPActive`. -/
def waitForEIPActive (R : Remote W) (eId : String) (s : World W) : RefreshResult × World W :=
  match eipsGet R eId s with
  | (.error err, s1) => (⟨none, "", some err⟩, s1)
  | (.ok e, s1) =>
    if e.Status = "DOWN" ∨ e.Status = "ACTIVE" then (⟨some e, "ACTIVE", none⟩, s1)
    else (⟨some e, "", none⟩, s1)

/-- `waitForEIPDelete`.  On a failed fetch the pointer `e` is nil. -/
def waitForEIPDelete (R : Remote W) (eId : String) (s : World W) : RefreshResult × World W :=
  match eipsGet R eId s with
  | (.error err, s1) =>
    if err.is404 then (⟨none, "DELETED", none⟩, s1)
    else (⟨none, "ACTIVE", some err⟩, s1)
  | (.ok e, s1) =>
    match eipsDelete R eId s1 with
    | (some err, s2) =>
      if err.is404 then (⟨some e, "DELETED", none⟩, s2)
      else (⟨some e, "ACTIVE", some err⟩, s2)
    | (none, s2) => (⟨some e, "ACTIVE", none⟩, s2)

/-! ## CRUD adapter -/

/-- `resourceVpcEIPV1Read`. -/
def resourceVpcEIPV1Read (R : Remote W) (config : Config) (d : ResourceData) (s : World W) :
    Ret W :=
  match config.vpcV1Client with
  | .error err => ⟨.error (Errorf "Error creating VPC client" err), d, s⟩
  | .ok _ =>
    match eipsGet R d.Id s with
    | (.error err, s1) => CheckDeleted d err "eIP" s1
    | (.ok eIP, s1) =>
      match bandwidthsGet R eIP.BandwidthID s1 with
      | (.error err, s2) => ⟨.error (Errorf "Error fetching bandwidth" err), d, s2⟩
      | (.ok bandWidth, s2) =>
        let publicIP : List (Option PublicIPBlock) :=
          [some { type := eIP.Type_, ip_address := eIP.PublicAddress, port_id := eIP.PortID }]
        let d1 := d.SetPublicip publicIP
        let bW : List (Option BandwidthBlock) :=
          [some { name := bandWidth.Name, size := eIP.BandwidthSize,
                  share_type := eIP.BandwidthShareType, charge_mode := bandWidth.ChargeMode }]
        let d2 := d1.SetBandwidth bW
        ⟨.nil, d2, s2⟩

/-- The `StateChangeConf` literal of `resourceVpcEIPV1Create`. -/
def createStateConf (d : ResourceData) : StateChangeConf :=
  { Pending := [], Target := ["ACTIVE"], Timeout := d.Timeout .TimeoutCreate,
    Delay := 5, MinTimeout := 3 }

/-- `resourceVpcEIPV1Create`. -/
def resourceVpcEIPV1Create (R : Remote W) (config : Config) (d : ResourceData) (s : World W) :
    Ret W :=
  match config.vpcV1Client with
  | .error err => ⟨.error (Errorf "Error creating VPC client" err), d, s⟩
  | .ok _ =>
    match createOpts d with
    | .fault p => ⟨.fault p, d, s⟩
    | .ok opts =>
      match eipsApply R opts s with
      | (.error err, s1) => ⟨.error (Errorf "Error allocating EIP" err), d, s1⟩
      | (.ok eIP, s1) =>
        let stateConf := createStateConf d
        -- `_, err = stateConf.WaitForState()`: the error is assigned and not read again
        let s2 := (WaitForState stateConf (waitForEIPActive R eIP.ID) s1).2
        let d1 := d.SetId eIP.ID
        resourceVpcEIPV1Read R config d1 s2

/-- The block `if d.HasChange("bandwidth") { ... }` of `resourceVpcEIPV1Update`:
either the function returns from inside the block (`.error`), or control
falls through (`.ok`). -/
def updateBandwidth (R : Remote W) (d : ResourceData) (s : World W) :
    Except (Ret W) (World W) :=
  if d.HasChangeBandwidth then
    let newBWList := d.GetBandwidth
    match firstMap newBWList with
    | .fault p => .error ⟨.fault p, d, s⟩
    | .ok newMap =>
      let updateOpts : BandwidthUpdateOpts := { Size := newMap.size, Name := newMap.name }
      match eipsGet R d.Id s with
      | (.error err, s1) => .error (CheckDeleted d err "eIP" s1)
      | (.ok eIP, s1) =>
        match bandwidthsUpdate R eIP.BandwidthID updateOpts s1 with
        | (.error err, s2) => .error ⟨.error (Errorf "Error updating bandwidth" err), d, s2⟩
        | (.ok _, s2) => .ok s2
  else .ok s

/-- The block `if d.HasChange("publicip") { ... }` of `resourceVpcEIPV1Update`. -/
def updatePublicip (R : Remote W) (d : ResourceData) (s : World W) :
    Except (Ret W) (World W) :=
  if d.HasChangePublicip then
    let newIPList := d.GetPublicip
    match firstMap newIPList with
    | .fault p => .error ⟨.fault p, d, s⟩
    | .ok newMap =>
      let updateOpts : EipUpdateOpts := { PortID := newMap.port_id }
      match eipsUpdate R d.Id updateOpts s with
      | (.error err, s1) => .error ⟨.error (Errorf "Error updating publicip" err), d, s1⟩
      | (.ok _, s1) => .ok s1
  else .ok s

/-- `resourceVpcEIPV1Update`. -/
def resourceVpcEIPV1Update (R : Remote W) (config : Config) (d : ResourceData) (s : World W) :
    Ret W :=
  match config.vpcV1Client with
  | .error err => ⟨.error (Errorf "Error creating EIP client" err), d, s⟩
  | .ok _ =>
    match updateBandwidth R d s with
    | .error ret => ret
    | .ok s1 =>
      match updatePublicip R d s1 with
      | .error ret => ret
      | .ok s2 => resourceVpcEIPV1Read R config d s2

/-- The `StateChangeConf` literal of `resourceVpcEIPV1Delete`. -/
def deleteStateConf (d : ResourceData) : StateChangeConf :=
  { Pending := ["ACTIVE"], Target := ["DELETED"], Timeout := d.Timeout .TimeoutCreate,
    Delay := 5, MinTimeout := 3 }

/-- `resourceVpcEIPV1Delete`. -/
def resourceVpcEIPV1Delete (R : Remote W) (config : Config) (d : ResourceData) (s : World W) :
    Ret W :=
  match config.vpcV1Client with
  | .error err => ⟨.error (Errorf "Error creating VPC client" err), d, s⟩
  | .ok _ =>
    let stateConf := deleteStateConf d
    match WaitForState stateConf (waitForEIPDelete R d.Id) s with
    | (.error err, s1) => ⟨.error (Errorf "Error deleting EIP" err), d, s1⟩
    | (.ok _, s1) => ⟨.nil, d.SetId "", s1⟩

/-! ## Spec-side definitions and example inputs -/

/-- The first replacement of `NewVpcServiceV1`, on code points. -/
def ecsToVpc (s : List Char) : List Char := replaceLoop ['e', 'c', 's'] ['v', 'p', 'c'] 1 s

/-- The second replacement of `NewVpcServiceV1`, on code points. -/
def v2ToV1 (s : List Char) : List Char := replaceLoop ['v', '2'] ['v', '1'] 1 s

/-- A public-IP block bound to port "port-a". -/
def examplePublicIP : PublicIPBlock := { type := "5_bgp", ip_address := "", port_id := "port-a" }

/-- The bandwidth block of the spec's example. -/
def exampleBandwidth : BandwidthBlock :=
  { name := "eip-bw", size := 10, share_type := "PER", charge_mode := "" }

/-- A resource whose planned values equal its prior state. -/
def exampleData : ResourceData :=
  { id := "eip-1",
    old_publicip := [some examplePublicIP], new_publicip := [some examplePublicIP],
    set_publicip := none,
    old_bandwidth := [some exampleBandwidth], new_bandwidth := [some exampleBandwidth],
    set_bandwidth := none,
    value_specs := [], timeouts := resourceVpcEIPV1Timeouts }

/-- The EIP record served by the example remotes. -/
def exampleEip (status : String) : PublicIp :=
  { ID := "eip-1", Status := status, Type_ := "5_bgp", PublicAddress := "203.0.113.7",
    PortID := "port-a", BandwidthID := "bw-1", BandwidthSize := 10, BandwidthShareType := "PER" }

/-- The bandwidth record served by the example remotes. -/
def exampleBW : BandWidth := { ID := "bw-1", Name := "eip-bw", ChargeMode := "traffic" }

/-- A remote on which every call succeeds and the EIP always reports `status`. -/
def steadyRemote (status : String) : Remote Unit :=
  { apply := fun w _ => (.ok (exampleEip status), w),
    get := fun w _ => (.ok (exampleEip status), w),
    update := fun w _ _ => (.ok (exampleEip status), w),
    delete := fun w _ => (none, w),
    bwGet := fun w _ => (.ok exampleBW, w),
    bwUpdate := fun w _ _ => (.ok exampleBW, w) }

/-- A host configuration whose client construction succeeds. -/
def okConfig : Config := { vpcV1Client := .ok ⟨"https://vpc.region.example.com/v1/tenant"⟩ }

/-- A resource whose planned bandwidth size is 20 while the prior state has 10. -/
def resizedData : ResourceData :=
  { exampleData with new_bandwidth := [some { exampleBandwidth with size := 20 }] }

/-- A resource whose planned bandwidth size and bound port both differ from the prior state. -/
def reboundData : ResourceData :=
  { exampleData with
    new_bandwidth := [some { exampleBandwidth with size := 20 }],
    new_publicip := [some { examplePublicIP with port_id := "port-b" }] }

/-- A remote on which everything succeeds except the EIP update. -/
def portUpdateFailsRemote : Remote Unit :=
  { steadyRemote "ACTIVE" with
    update := fun w _ _ => (.error (.errorString "port is in use"), w) }

/-- A remote whose delete call fails with a server error. -/
def deleteFailsRemote : Remote Unit :=
  { steadyRemote "ACTIVE" with
    delete := fun w _ => (some (.errorString "500 internal error"), w) }

/-- A remote on which the EIP does not exist. -/
def absentRemote : Remote Unit :=
  { steadyRemote "ACTIVE" with
    get := fun w _ => (.error (.ErrDefault404 "Resource not found"), w),
    delete := fun w _ => (some (.ErrDefault404 "Resource not found"), w) }

/-- A remote whose first status fetch fails with a server error; every later call succeeds.
The remote state counts the status fetches. -/
def flakyRemote : Remote Nat :=
  { apply := fun w _ => (.ok (exampleEip "PENDING_CREATE"), w),
    get := fun w _ =>
      if w = 0 then (.error (.errorString "503 service unavailable"), w + 1)
      else (.ok (exampleEip "ACTIVE"), w + 1),
    update := fun w _ _ => (.ok (exampleEip "ACTIVE"), w),
    delete := fun w _ => (none, w),
    bwGet := fun w _ => (.ok exampleBW, w),
    bwUpdate := fun w _ _ => (.ok exampleBW, w) }

/-- The create payload of `exampleData`. -/
def exampleCreateOpts : EIPCreateOpts :=
  { ApplyOpts := { IP := { Type_ := "5_bgp", Address := "" },
                   Bandwidth := { Name := "eip-bw", Size := 10, ShareType := "PER",
                                  ChargeMode := "" } },
    ValueSpecs := [] }

/-- Spec side: re-extraction of a bandwidth block from the bandwidth payload (§8). -/
def reextractBandwidth (o : BandwidthOpts) : BandwidthBlock :=
  { name := o.Name, size := o.Size, share_type := o.ShareType, charge_mode := o.ChargeMode }

/-- Spec side: re-extraction of the `type` and `ip_address` of a public-IP block
from the public-IP payload (§8). -/
def reextractPublicIP (o : PublicIpOpts) : String × String := (o.Type_, o.Address)

/-- The example resource with create and delete timeouts of 3 s. -/
def shortDeadlineData : ResourceData :=
  { exampleData with timeouts := { Create := 3, Delete := 3 } }

/-- A record for a new resource whose `publicip` block has no field set (`type = ""`): the
list has one element, the nil interface value. -/
def nilBlockData : ResourceData :=
  { exampleData with old_publicip := [], new_publicip := [none], old_bandwidth := [] }

/-- The example resource bound to another port. -/
def otherPortData : ResourceData :=
  { exampleData with new_publicip := [some { examplePublicIP with port_id := "port-b" }] }

/-! ## Theorems -/

theorem replaceLoop_one_nil (old new : List Char) (h : old ≠ []) :
    replaceLoop old new 1 [] = [] := by
  simp [replaceLoop, splitFirst, h]

theorem replaceLoop_one_cons (old new : List Char) (c : Char) (cs : List Char) :
    replaceLoop old new 1 (c :: cs) =
      if old.isPrefixOf (c :: cs) then new ++ (c :: cs).drop old.length
      else c :: replaceLoop old new 1 cs := by
  simp only [replaceLoop, splitFirst]
  by_cases hp : old.isPrefixOf (c :: cs) = true
  · simp [hp]
  · simp only [hp]
    cases h : splitFirst old cs with
    | none => simp
    | some p => obtain ⟨pre, post⟩ := p; simp

theorem ecsToVpc_nil : ecsToVpc [] = [] := replaceLoop_one_nil _ _ (by simp)
theorem v2ToV1_nil : v2ToV1 [] = [] := replaceLoop_one_nil _ _ (by simp)

theorem ecsToVpc_cons (a : Char) (t : List Char) :
    ecsToVpc (a :: t) =
      if 'e' = a ∧ ['c', 's'].isPrefixOf t = true then 'v' :: 'p' :: 'c' :: t.drop 2
      else a :: ecsToVpc t := by
  unfold ecsToVpc
  rw [replaceLoop_one_cons]
  simp

theorem v2ToV1_cons (a : Char) (t : List Char) :
    v2ToV1 (a :: t) =
      if 'v' = a ∧ ['2'].isPrefixOf t = true then 'v' :: '1' :: t.drop 1
      else a :: v2ToV1 t := by
  unfold v2ToV1
  rw [replaceLoop_one_cons]
  simp

theorem v2_isPrefixOf_ecsToVpc (s : List Char) :
    ['v', '2'].isPrefixOf (ecsToVpc s) = ['v', '2'].isPrefixOf s := by
  rcases s with _ | ⟨a, _ | ⟨b, t⟩⟩
  · simp [ecsToVpc_nil]
  · simp [ecsToVpc_cons, ecsToVpc_nil, List.isPrefixOf_cons₂]
  · simp only [ecsToVpc_cons]
    split_ifs with h1 h2
    · simp [← h1.1, List.isPrefixOf_cons₂]
    · simp [← h2.1, List.isPrefixOf_cons₂]
    · simp [List.isPrefixOf_cons₂]

theorem ecs_isPrefixOf_v2ToV1 (s : List Char) :
    ['e', 'c', 's'].isPrefixOf (v2ToV1 s) = ['e', 'c', 's'].isPrefixOf s := by
  rcases s with _ | ⟨a, _ | ⟨b, _ | ⟨c, t⟩⟩⟩
  · simp [v2ToV1_nil]
  · simp [v2ToV1_cons, v2ToV1_nil, List.isPrefixOf_cons₂]
  · simp only [v2ToV1_cons, v2ToV1_nil]
    split_ifs with h1 h2 <;> simp [List.isPrefixOf_cons₂]
  · simp only [v2ToV1_cons]
    split_ifs with h1 h2 h3
    · simp [← h1.1, List.isPrefixOf_cons₂]
    · simp [← h2.1, List.isPrefixOf_cons₂]
    · simp [← h3.1, List.isPrefixOf_cons₂]
    · simp [List.isPrefixOf_cons₂]

theorem v2ToV1_ecsToVpc_comm (s : List Char) :
    v2ToV1 (ecsToVpc s) = ecsToVpc (v2ToV1 s) := by
  induction s with
  | nil => simp [ecsToVpc_nil, v2ToV1_nil]
  | cons a t ih =>
    have h3 := v2_isPrefixOf_ecsToVpc (a :: t)
    have h2 := ecs_isPrefixOf_v2ToV1 (a :: t)
    by_cases hE : ('e' = a ∧ ['c', 's'].isPrefixOf t = true)
    · obtain ⟨rfl, ht⟩ := hE
      rcases t with _ | ⟨b, _ | ⟨c, t⟩⟩
      · simp at ht
      · simp at ht
      · simp at ht
        obtain ⟨rfl, rfl⟩ := ht
        simp [ecsToVpc_cons, v2ToV1_cons]
    · by_cases hV : ('v' = a ∧ ['2'].isPrefixOf t = true)
      · obtain ⟨rfl, ht⟩ := hV
        rcases t with _ | ⟨b, t⟩
        · simp at ht
        · simp at ht
          subst ht
          simp [ecsToVpc_cons, v2ToV1_cons]
      · rw [ecsToVpc_cons, if_neg hE] at h3 ⊢
        rw [v2ToV1_cons a t, if_neg hV] at h2 ⊢
        have e1 : ¬ ('v' = a ∧ ['2'].isPrefixOf (ecsToVpc t) = true) := by
          intro h; apply hV
          have : ['v', '2'].isPrefixOf (a :: ecsToVpc t) = true := by
            simp only [List.isPrefixOf_cons₂, h.1, h.2]; simp [← h.1]
          rw [h3] at this
          simpa [List.isPrefixOf_cons₂] using this
        have e2 : ¬ ('e' = a ∧ ['c', 's'].isPrefixOf (v2ToV1 t) = true) := by
          intro h; apply hE
          have : ['e', 'c', 's'].isPrefixOf (a :: v2ToV1 t) = true := by
            simp only [List.isPrefixOf_cons₂, h.1, h.2]; simp [← h.1]
          rw [h2] at this
          simpa [List.isPrefixOf_cons₂] using this
        rw [v2ToV1_cons, if_neg e1, ecsToVpc_cons, if_neg e2, ih]

theorem isPrefixOf_eq_append (old s : List Char) (h : old.isPrefixOf s = true) :
    s = old ++ s.drop old.length := by
  rw [List.isPrefixOf_iff_prefix] at h
  exact (List.prefix_iff_eq_append.mp h).symm

theorem splitFirst_some (old : List Char) :
    ∀ (s pre post : List Char), splitFirst old s = some (pre, post) →
      s = pre ++ old ++ post ∧
      ∀ pre2 post2 : List Char, s = pre2 ++ old ++ post2 → pre.length ≤ pre2.length := by
  intro s
  induction s with
  | nil =>
    intro pre post h
    by_cases ho : old = []
    · simp [splitFirst, ho] at h
      obtain ⟨rfl, rfl⟩ := h
      simp [ho]
    · simp [splitFirst, ho] at h
  | cons c cs ih =>
    intro pre post h
    by_cases hp : old.isPrefixOf (c :: cs) = true
    · simp only [splitFirst, hp, if_true, Option.some.injEq, Prod.mk.injEq] at h
      obtain ⟨rfl, rfl⟩ := h
      refine ⟨?_, fun _ _ _ => Nat.zero_le _⟩
      simpa using isPrefixOf_eq_append old (c :: cs) hp
    · simp only [splitFirst, hp] at h
      cases hs : splitFirst old cs with
      | none => simp [hs] at h
      | some p =>
        obtain ⟨pre0, post0⟩ := p
        simp only [hs, Bool.false_eq_true, if_false, Option.some.injEq, Prod.mk.injEq] at h
        obtain ⟨rfl, rfl⟩ := h
        obtain ⟨h1, h2⟩ := ih pre0 post0 hs
        refine ⟨by simp [h1], ?_⟩
        intro pre2 post2 e
        rcases pre2 with _ | ⟨x, pre2⟩
        · exfalso; apply hp
          rw [List.isPrefixOf_iff_prefix]
          exact ⟨post2, by simpa using e.symm⟩
        · simp only [List.cons_append, List.cons.injEq] at e
          have := h2 pre2 post2 (by simpa using e.2)
          simpa using this

theorem splitFirst_none (old : List Char) :
    ∀ s : List Char, splitFirst old s = none → ¬ old <:+: s := by
  intro s
  induction s with
  | nil =>
    intro h
    by_cases ho : old = []
    · simp [splitFirst, ho] at h
    · simpa using ho
  | cons c cs ih =>
    intro h
    by_cases hp : old.isPrefixOf (c :: cs) = true
    · simp [splitFirst, hp] at h
    · simp only [splitFirst, hp] at h
      cases hs : splitFirst old cs with
      | some p => simp [hs] at h
      | none =>
        have := ih hs
        rw [List.infix_cons_iff]
        rintro (h1 | h1)
        · exact hp (List.isPrefixOf_iff_prefix.mpr h1)
        · exact this h1

theorem splitFirst_eq_none_of_not_infix (old s : List Char) (h : ¬ old <:+: s) :
    splitFirst old s = none := by
  cases hs : splitFirst old s with
  | none => rfl
  | some p =>
    obtain ⟨pre, post⟩ := p
    exact absurd ⟨pre, post, (splitFirst_some old s pre post hs).1.symm⟩ h

theorem replaceLoop_one_length (old new : List Char) (hl : old.length = new.length)
    (s : List Char) : (replaceLoop old new 1 s).length = s.length := by
  simp only [replaceLoop]
  cases hs : splitFirst old s with
  | none => rfl
  | some p =>
    obtain ⟨pre, post⟩ := p
    have := (splitFirst_some old s pre post hs).1
    simp [this, hl]

theorem stringsReplace_one (s old new : String) (h1 : old ≠ new) (h2 : old.data ≠ []) :
    stringsReplace s old new 1 = String.mk (replaceLoop old.data new.data 1 s.data) := by
  simp [stringsReplace, h1, h2]

theorem stringsReplace_ecs (s : String) :
    stringsReplace s "ecs" "vpc" 1 = String.mk (ecsToVpc s.data) :=
  stringsReplace_one s "ecs" "vpc" (by decide) (by decide)

theorem stringsReplace_v2 (s : String) :
    stringsReplace s "v2" "v1" 1 = String.mk (v2ToV1 s.data) :=
  stringsReplace_one s "v2" "v1" (by decide) (by decide)

theorem stringsReplace_one_cases (s old new : String) (h1 : old ≠ new) (h2 : old.data ≠ []) :
    (¬ old.data <:+: s.data ∧ stringsReplace s old new 1 = s) ∨
    (∃ pre post : List Char, s.data = pre ++ old.data ++ post ∧
      (∀ pre2 post2 : List Char, s.data = pre2 ++ old.data ++ post2 → pre.length ≤ pre2.length) ∧
      (stringsReplace s old new 1).data = pre ++ new.data ++ post) := by
  rw [stringsReplace_one s old new h1 h2]
  cases hs : splitFirst old.data s.data with
  | none =>
    left
    exact ⟨splitFirst_none _ _ hs, by simp [replaceLoop, hs]⟩
  | some p =>
    obtain ⟨pre, post⟩ := p
    right
    obtain ⟨e1, e2⟩ := splitFirst_some _ _ _ _ hs
    exact ⟨pre, post, e1, e2, by simp [replaceLoop, hs]⟩

/-- C8: the endpoint returned by `NewVpcServiceV1` is the discovered endpoint with the first
"ecs" replaced by "vpc" and then the first "v2" replaced by "v1"; applying the two replacements
in the other order gives the same endpoint; the length is preserved; an endpoint containing
neither token is returned unchanged; each replacement either finds no occurrence and changes
nothing, or rewrites exactly the leftmost occurrence and leaves the text before and after it
alone; the error of the discovery is passed through. -/
theorem NewVpcServiceV1_endpoint (sc : ServiceClient) (err : Option String) :
    (NewVpcServiceV1 sc err).1.Endpoint
        = stringsReplace (stringsReplace sc.Endpoint "ecs" "vpc" 1) "v2" "v1" 1
    ∧ (NewVpcServiceV1 sc err).1.Endpoint
        = stringsReplace (stringsReplace sc.Endpoint "v2" "v1" 1) "ecs" "vpc" 1
    ∧ (NewVpcServiceV1 sc err).1.Endpoint.length = sc.Endpoint.length
    ∧ (¬ "ecs".data <:+: sc.Endpoint.data → ¬ "v2".data <:+: sc.Endpoint.data →
        (NewVpcServiceV1 sc err).1.Endpoint = sc.Endpoint)
    ∧ (∀ s : String,
        (¬ "ecs".data <:+: s.data ∧ stringsReplace s "ecs" "vpc" 1 = s) ∨
        (∃ pre post : List Char, s.data = pre ++ "ecs".data ++ post ∧
          (∀ pre2 post2 : List Char, s.data = pre2 ++ "ecs".data ++ post2 →
            pre.length ≤ pre2.length) ∧
          (stringsReplace s "ecs" "vpc" 1).data = pre ++ "vpc".data ++ post))
    ∧ (∀ s : String,
        (¬ "v2".data <:+: s.data ∧ stringsReplace s "v2" "v1" 1 = s) ∨
        (∃ pre post : List Char, s.data = pre ++ "v2".data ++ post ∧
          (∀ pre2 post2 : List Char, s.data = pre2 ++ "v2".data ++ post2 →
            pre.length ≤ pre2.length) ∧
          (stringsReplace s "v2" "v1" 1).data = pre ++ "v1".data ++ post))
    ∧ (NewVpcServiceV1 sc err).2 = err := by
  refine ⟨rfl, ?_, ?_, ?_, ?_, ?_, rfl⟩
  · show stringsReplace (stringsReplace sc.Endpoint "ecs" "vpc" 1) "v2" "v1" 1 = _
    simp only [stringsReplace_ecs, stringsReplace_v2, v2ToV1_ecsToVpc_comm]
  · show (stringsReplace (stringsReplace sc.Endpoint "ecs" "vpc" 1) "v2" "v1" 1).length = _
    simp only [stringsReplace_ecs, stringsReplace_v2, String.length, ecsToVpc, v2ToV1]
    rw [replaceLoop_one_length ['v', '2'] ['v', '1'] rfl,
      replaceLoop_one_length ['e', 'c', 's'] ['v', 'p', 'c'] rfl]
  · intro hE hV
    show stringsReplace (stringsReplace sc.Endpoint "ecs" "vpc" 1) "v2" "v1" 1 = _
    have e1 : stringsReplace sc.Endpoint "ecs" "vpc" 1 = sc.Endpoint := by
      rw [stringsReplace_one _ _ _ (by decide) (by decide)]
      simp [replaceLoop, splitFirst_eq_none_of_not_infix _ _ hE]
    rw [e1, stringsReplace_one _ _ _ (by decide) (by decide)]
    simp [replaceLoop, splitFirst_eq_none_of_not_infix _ _ hV]
  · intro s; exact stringsReplace_one_cases s _ _ (by decide) (by decide)
  · intro s; exact stringsReplace_one_cases s _ _ (by decide) (by decide)

/-- C8 at concrete endpoints: the example of the claim, an endpoint with two occurrences of each
token (only the first of each is rewritten), and an endpoint with neither token. -/
theorem NewVpcServiceV1_endpoint_witness :
    (NewVpcServiceV1 ⟨"https://ecs.region.example.com/v2/tenant"⟩ none).1.Endpoint
        = "https://vpc.region.example.com/v1/tenant"
    ∧ (NewVpcServiceV1 ⟨"https://ecs.region.example.com/v2/tenant"⟩ none).1.Endpoint.length = 40
    ∧ (NewVpcServiceV1 ⟨"https://ecs.ecs.example.com/v2/v2"⟩ none).1.Endpoint
        = "https://vpc.ecs.example.com/v1/v2"
    ∧ ¬ "ecs".data <:+: "https://iam.example.com/v3".data ∧ ¬ "v2".data <:+: "https://iam.example.com/v3".data
    ∧ (NewVpcServiceV1 ⟨"https://iam.example.com/v3"⟩ none).1.Endpoint = "https://iam.example.com/v3" := by
  have h := NewVpcServiceV1_endpoint ⟨"https://iam.example.com/v3"⟩ none
  have hE : ¬ "ecs".data <:+: "https://iam.example.com/v3".data := by decide
  have hV : ¬ "v2".data <:+: "https://iam.example.com/v3".data := by decide
  exact ⟨by decide, by decide, by decide, hE, hV, h.2.2.2.1 hE hV⟩

theorem Read_calls (R : Remote W) (config : Config) (d : ResourceData) (s : World W) :
    (resourceVpcEIPV1Read R config d s).world.calls = s.calls
    ∨ (resourceVpcEIPV1Read R config d s).world.calls = s.calls ++ [.eipsGet d.Id]
    ∨ ∃ bid, (resourceVpcEIPV1Read R config d s).world.calls
        = s.calls ++ [.eipsGet d.Id, .bandwidthsGet bid] := by
  unfold resourceVpcEIPV1Read
  cases hc : config.vpcV1Client with
  | error e => simp
  | ok c =>
    cases hg : (R.get s.remote d.Id).1 with
    | error e =>
      right; left
      simp only [eipsGet, hg, CheckDeleted]
      split_ifs <;> rfl
    | ok eIP =>
      right; right
      refine ⟨eIP.BandwidthID, ?_⟩
      cases hb : (R.bwGet (R.get s.remote d.Id).2 eIP.BandwidthID).1 with
      | error e => simp [eipsGet, bandwidthsGet, hg, hb]
      | ok b => simp [eipsGet, bandwidthsGet, hg, hb]

theorem Read_calls_nonmutating (R : Remote W) (config : Config) (d : ResourceData) (s : World W) :
    ∃ reads : List Call, (resourceVpcEIPV1Read R config d s).world.calls = s.calls ++ reads ∧
      ∀ c ∈ reads, c.isMutating = false := by
  rcases Read_calls R config d s with h | h | ⟨bid, h⟩
  · exact ⟨[], by simpa using h, by simp⟩
  · exact ⟨_, h, by simp [Call.isMutating]⟩
  · exact ⟨_, h, by simp [Call.isMutating]⟩

theorem Read_calls_ok (R : Remote W) (config : Config) (d : ResourceData) (s : World W)
    (c : ServiceClient) (hc : config.vpcV1Client = .ok c) :
    (resourceVpcEIPV1Read R config d s).world.calls = s.calls ++ [.eipsGet d.Id]
    ∨ ∃ bid, (resourceVpcEIPV1Read R config d s).world.calls
        = s.calls ++ [.eipsGet d.Id, .bandwidthsGet bid] := by
  unfold resourceVpcEIPV1Read
  simp only [hc]
  cases hg : (R.get s.remote d.Id).1 with
  | error e =>
    left
    simp only [eipsGet, hg, CheckDeleted]
    split_ifs <;> rfl
  | ok eIP =>
    right
    refine ⟨eIP.BandwidthID, ?_⟩
    cases hb : (R.bwGet (R.get s.remote d.Id).2 eIP.BandwidthID).1 with
    | error e => simp [eipsGet, bandwidthsGet, hg, hb]
    | ok b => simp [eipsGet, bandwidthsGet, hg, hb]

/-- C4 (amended): when neither block has changed, `resourceVpcEIPV1Update` issues no update
call.  If the client cannot be built it returns that error with no remote call; otherwise it
is exactly the trailing `resourceVpcEIPV1Read`, whose calls are the EIP get and, when that
succeeds, the bandwidth get. -/
theorem Update_without_change (R : Remote W) (config : Config) (d : ResourceData) (s : World W)
    (hbw : d.HasChangeBandwidth = false) (hip : d.HasChangePublicip = false) :
    (∀ e, config.vpcV1Client = .error e →
      (resourceVpcEIPV1Update R config d s).out = .error (Errorf "Error creating EIP client" e)
      ∧ (resourceVpcEIPV1Update R config d s).world.calls = s.calls)
    ∧ (∀ c, config.vpcV1Client = .ok c →
      resourceVpcEIPV1Update R config d s = resourceVpcEIPV1Read R config d s
      ∧ ((resourceVpcEIPV1Update R config d s).world.calls = s.calls ++ [.eipsGet d.Id]
        ∨ ∃ bid, (resourceVpcEIPV1Update R config d s).world.calls
            = s.calls ++ [.eipsGet d.Id, .bandwidthsGet bid])) := by
  constructor
  · intro e hc
    simp [resourceVpcEIPV1Update, hc]
  · intro c hc
    have e : resourceVpcEIPV1Update R config d s = resourceVpcEIPV1Read R config d s := by
      simp [resourceVpcEIPV1Update, hc, updateBandwidth, updatePublicip, hbw, hip]
    exact ⟨e, e ▸ Read_calls_ok R config d s c hc⟩

/-- C4 (amended) at the unchanged example resource. -/
theorem Update_without_change_witness :
    exampleData.HasChangeBandwidth = false ∧ exampleData.HasChangePublicip = false
    ∧ resourceVpcEIPV1Update (steadyRemote "ACTIVE") okConfig exampleData ⟨(), []⟩
        = resourceVpcEIPV1Read (steadyRemote "ACTIVE") okConfig exampleData ⟨(), []⟩ :=
  ⟨by decide, by decide,
    ((Update_without_change (steadyRemote "ACTIVE") okConfig exampleData ⟨(), []⟩
      (by decide) (by decide)).2 _ rfl).1⟩

/-- C4 as stated fails: on the unchanged example resource the whole Update operation issues
two remote calls (the gets of the trailing Read), so its trace is not empty. -/
theorem Update_without_change_issues_calls :
    exampleData.HasChangeBandwidth = false ∧ exampleData.HasChangePublicip = false
    ∧ (resourceVpcEIPV1Update (steadyRemote "ACTIVE") okConfig exampleData ⟨(), []⟩).world.calls
        = [.eipsGet "eip-1", .bandwidthsGet "bw-1"]
    ∧ (resourceVpcEIPV1Update (steadyRemote "ACTIVE") okConfig exampleData ⟨(), []⟩).world.calls
        ≠ [] := by
  decide

/-- C5: when only the bandwidth block changed and the EIP get and the bandwidth update
succeed (the new bandwidth list starting with a block), the calls of
`resourceVpcEIPV1Update` are the EIP get, one bandwidth update addressed
to the bandwidth ID of the fetched EIP and carrying the size and name of the first entry of
the new bandwidth list, and then only gets; that bandwidth update is the only mutating call of
the operation, so no EIP update is issued. -/
theorem Update_bandwidth_only (R : Remote W) (config : Config) (d : ResourceData) (s : World W)
    (c : ServiceClient) (bw : BandwidthBlock) (rest : List (Option BandwidthBlock))
    (eIP : PublicIp) (b : BandWidth)
    (hbw : d.HasChangeBandwidth = true) (hip : d.HasChangePublicip = false)
    (hc : config.vpcV1Client = .ok c)
    (hl : d.GetBandwidth = some bw :: rest)
    (hget : (R.get s.remote d.Id).1 = .ok eIP)
    (hupd : (R.bwUpdate (R.get s.remote d.Id).2 eIP.BandwidthID
              { Size := bw.size, Name := bw.name }).1 = .ok b) :
    (∃ reads : List Call,
      (resourceVpcEIPV1Update R config d s).world.calls
        = s.calls ++ [.eipsGet d.Id,
            .bandwidthsUpdate eIP.BandwidthID { Size := bw.size, Name := bw.name }] ++ reads
      ∧ ∀ x ∈ reads, x.isMutating = false)
    ∧ ((resourceVpcEIPV1Update R config d s).world.calls.drop s.calls.length).filter
          Call.isMutating
        = [.bandwidthsUpdate eIP.BandwidthID { Size := bw.size, Name := bw.name }] := by
  have key : ∃ reads : List Call,
      (resourceVpcEIPV1Update R config d s).world.calls
        = s.calls ++ [.eipsGet d.Id,
            .bandwidthsUpdate eIP.BandwidthID { Size := bw.size, Name := bw.name }] ++ reads
      ∧ ∀ x ∈ reads, x.isMutating = false := by
    simp only [resourceVpcEIPV1Update, hc, updateBandwidth, updatePublicip, hbw, hip, hl, firstMap,
      index0, assertMap, eipsGet, hget, bandwidthsUpdate, hupd, if_true]
    obtain ⟨reads, h1, h2⟩ := Read_calls_nonmutating R config d
      ⟨(R.bwUpdate (R.get s.remote d.Id).2 eIP.BandwidthID
          { Size := bw.size, Name := bw.name }).2,
        s.calls ++ [Call.eipsGet d.Id] ++
          [Call.bandwidthsUpdate eIP.BandwidthID { Size := bw.size, Name := bw.name }]⟩
    refine ⟨reads, ?_, h2⟩
    simpa using h1
  refine ⟨key, ?_⟩
  obtain ⟨reads, h1, h2⟩ := key
  rw [h1, List.append_assoc, List.drop_left]
  simp only [List.filter_append, List.filter_cons, List.filter_nil, Call.isMutating]
  have : reads.filter Call.isMutating = [] := by
    rw [List.filter_eq_nil_iff]
    intro x hx
    simp [h2 x hx]
  simp [this]

/-- C5 at the example of the spec: a new size of 20 gives one bandwidth update with Size=20. -/
theorem Update_bandwidth_only_witness :
    ((resourceVpcEIPV1Update (steadyRemote "ACTIVE") okConfig resizedData
        ⟨(), []⟩).world.calls.drop 0).filter Call.isMutating
      = [.bandwidthsUpdate "bw-1" { Size := 20, Name := "eip-bw" }] :=
  (Update_bandwidth_only (steadyRemote "ACTIVE") okConfig resizedData ⟨(), []⟩
    ⟨"https://vpc.region.example.com/v1/tenant"⟩ { exampleBandwidth with size := 20 } []
    (exampleEip "ACTIVE") exampleBW (by decide) (by decide) rfl rfl rfl rfl).2

/-- C7: when both blocks changed (each new list starting with a block), the bandwidth update
succeeds and the EIP update fails,
`resourceVpcEIPV1Update` returns the error of the EIP update (wrapped with its context), and
its calls are the EIP get, the bandwidth update and the failed EIP update, in this order and
nothing after them: the applied bandwidth change is not rolled back. -/
theorem Update_port_failure_after_bandwidth (R : Remote W) (config : Config)
    (d : ResourceData) (s : World W)
    (c : ServiceClient) (bw : BandwidthBlock) (rest : List (Option BandwidthBlock))
    (ip : PublicIPBlock) (rest2 : List (Option PublicIPBlock))
    (eIP : PublicIp) (b : BandWidth) (err : GoError)
    (hbw : d.HasChangeBandwidth = true) (hip : d.HasChangePublicip = true)
    (hc : config.vpcV1Client = .ok c)
    (hl : d.GetBandwidth = some bw :: rest) (hl2 : d.GetPublicip = some ip :: rest2)
    (hget : (R.get s.remote d.Id).1 = .ok eIP)
    (hupd : (R.bwUpdate (R.get s.remote d.Id).2 eIP.BandwidthID
              { Size := bw.size, Name := bw.name }).1 = .ok b)
    (hport : (R.update (R.bwUpdate (R.get s.remote d.Id).2 eIP.BandwidthID
              { Size := bw.size, Name := bw.name }).2 d.Id { PortID := ip.port_id }).1
              = .error err) :
    (resourceVpcEIPV1Update R config d s).out = .error (Errorf "Error updating publicip" err)
    ∧ (resourceVpcEIPV1Update R config d s).world.calls
        = s.calls ++ [.eipsGet d.Id,
            .bandwidthsUpdate eIP.BandwidthID { Size := bw.size, Name := bw.name },
            .eipsUpdate d.Id { PortID := ip.port_id }]
    ∧ (resourceVpcEIPV1Update R config d s).d = d := by
  simp [resourceVpcEIPV1Update, hc, updateBandwidth, updatePublicip, hbw, hip, hl, hl2, firstMap,
    index0, assertMap, eipsGet, hget, bandwidthsUpdate, hupd, eipsUpdate, hport]

/-- C7 on a remote whose EIP update fails. -/
theorem Update_port_failure_after_bandwidth_witness :
    (resourceVpcEIPV1Update portUpdateFailsRemote okConfig reboundData ⟨(), []⟩).out
      = .error (.errorString "Error updating publicip: port is in use")
    ∧ (resourceVpcEIPV1Update portUpdateFailsRemote okConfig reboundData ⟨(), []⟩).world.calls
        = [.eipsGet "eip-1", .bandwidthsUpdate "bw-1" { Size := 20, Name := "eip-bw" },
            .eipsUpdate "eip-1" { PortID := "port-b" }] :=
  have h := Update_port_failure_after_bandwidth portUpdateFailsRemote okConfig reboundData
    ⟨(), []⟩ ⟨"https://vpc.region.example.com/v1/tenant"⟩ { exampleBandwidth with size := 20 } []
    { examplePublicIP with port_id := "port-b" } []
    (exampleEip "ACTIVE") exampleBW (.errorString "port is in use")
    (by decide) (by decide) rfl rfl rfl rfl rfl rfl
  ⟨h.1, h.2.1⟩

/-- C9: one tick of `waitForEIPDelete`.  When the status fetch succeeds, exactly one delete
call follows it, and the tick reports "ACTIVE" without error if the delete succeeds, "DELETED"
without error if the delete answers 404, and "ACTIVE" with the error for any other delete
failure.  When the status fetch fails with an error other than 404, no delete call is issued
and that error is returned. -/
theorem waitForEIPDelete_tick (R : Remote W) (eId : String) (s : World W) :
    (∀ e, (R.get s.remote eId).1 = .ok e →
      (waitForEIPDelete R eId s).2.calls = s.calls ++ [.eipsGet eId, .eipsDelete eId]
      ∧ ((R.delete (R.get s.remote eId).2 eId).1 = none →
          (waitForEIPDelete R eId s).1 = ⟨some e, "ACTIVE", none⟩)
      ∧ (∀ msg, (R.delete (R.get s.remote eId).2 eId).1 = some (.ErrDefault404 msg) →
          (waitForEIPDelete R eId s).1 = ⟨some e, "DELETED", none⟩)
      ∧ (∀ err, (R.delete (R.get s.remote eId).2 eId).1 = some err → err.is404 = false →
          (waitForEIPDelete R eId s).1 = ⟨some e, "ACTIVE", some err⟩))
    ∧ (∀ err, (R.get s.remote eId).1 = .error err → err.is404 = false →
      (waitForEIPDelete R eId s).2.calls = s.calls ++ [.eipsGet eId]
      ∧ (waitForEIPDelete R eId s).1 = ⟨none, "ACTIVE", some err⟩) := by
  constructor
  · intro e hg
    refine ⟨?_, ?_, ?_, ?_⟩
    · cases hd : (R.delete (R.get s.remote eId).2 eId).1 with
      | none => simp [waitForEIPDelete, eipsGet, hg, eipsDelete, hd]
      | some err =>
        simp only [waitForEIPDelete, eipsGet, hg, eipsDelete, hd]
        split_ifs <;> simp
    · intro hd
      simp [waitForEIPDelete, eipsGet, hg, eipsDelete, hd]
    · intro msg hd
      simp [waitForEIPDelete, eipsGet, hg, eipsDelete, hd, GoError.is404]
    · intro err hd h4
      simp [waitForEIPDelete, eipsGet, hg, eipsDelete, hd, h4]
  · intro err hg h4
    simp [waitForEIPDelete, eipsGet, hg, h4]

/-- C9 on a remote whose delete succeeds and on one whose delete fails with a server error. -/
theorem waitForEIPDelete_tick_witness :
    (waitForEIPDelete (steadyRemote "ACTIVE") "eip-1" ⟨(), []⟩).2.calls
      = [.eipsGet "eip-1", .eipsDelete "eip-1"]
    ∧ (waitForEIPDelete (steadyRemote "ACTIVE") "eip-1" ⟨(), []⟩).1
      = ⟨some (exampleEip "ACTIVE"), "ACTIVE", none⟩
    ∧ (waitForEIPDelete deleteFailsRemote "eip-1" ⟨(), []⟩).1
      = ⟨some (exampleEip "ACTIVE"), "ACTIVE", some (.errorString "500 internal error")⟩ :=
  have h := (waitForEIPDelete_tick (steadyRemote "ACTIVE") "eip-1" ⟨(), []⟩).1
    (exampleEip "ACTIVE") rfl
  have h2 := (waitForEIPDelete_tick deleteFailsRemote "eip-1" ⟨(), []⟩).1
    (exampleEip "ACTIVE") rfl
  ⟨h.1, h.2.1 rfl, h2.2.2.2 _ rfl rfl⟩

/-- C6 (amended): when the status fetch answers 404, one tick of `waitForEIPDelete` reports
"DELETED" with no error and issues no delete call; consequently, when the client is available
and the poller's deadline lies after its initial delay (so that a first tick is made),
`resourceVpcEIPV1Delete` on an absent ID reaches the target state on that first tick, returns
no error, clears the resource ID and has issued that single status fetch. -/
theorem Delete_absent (R : Remote W) (config : Config) (d : ResourceData) (s : World W)
    (eId msg : String) :
    ((R.get s.remote eId).1 = .error (.ErrDefault404 msg) →
      (waitForEIPDelete R eId s).1 = ⟨none, "DELETED", none⟩
      ∧ (waitForEIPDelete R eId s).2.calls = s.calls ++ [.eipsGet eId])
    ∧ (∀ c, config.vpcV1Client = .ok c →
        (deleteStateConf d).Delay < (deleteStateConf d).Timeout →
        (R.get s.remote d.Id).1 = .error (.ErrDefault404 msg) →
        (resourceVpcEIPV1Delete R config d s).out = .nil
        ∧ (resourceVpcEIPV1Delete R config d s).d.Id = ""
        ∧ (resourceVpcEIPV1Delete R config d s).world.calls = s.calls ++ [.eipsGet d.Id]) := by
  constructor
  · intro hg
    simp [waitForEIPDelete, eipsGet, hg, GoError.is404]
  · intro c hc ht hg
    have htick : waitForEIPDelete R d.Id s
        = (⟨none, "DELETED", none⟩, ⟨(R.get s.remote d.Id).2, s.calls ++ [.eipsGet d.Id]⟩) := by
      simp [waitForEIPDelete, eipsGet, hg, GoError.is404]
    have hwait : WaitForState (deleteStateConf d) (waitForEIPDelete R d.Id) s
        = (.ok none, ⟨(R.get s.remote d.Id).2, s.calls ++ [.eipsGet d.Id]⟩) := by
      unfold WaitForState
      obtain ⟨n, hn⟩ : ∃ n, (deleteStateConf d).Timeout = n + 1 :=
        ⟨(deleteStateConf d).Timeout - 1, by omega⟩
      have hnot : ¬ ((deleteStateConf d).Timeout ≤ (deleteStateConf d).Delay) := by omega
      have ht2 : (deleteStateConf d).Target = ["DELETED"] := rfl
      rw [hn, pollLoop, if_neg hnot, htick]
      simp [ht2]
    simp only [resourceVpcEIPV1Delete, hc, hwait]
    simp [ResourceData.SetId, ResourceData.Id]

/-- C6 (amended) on a remote where the EIP does not exist, with the default timeouts. -/
theorem Delete_absent_witness :
    (resourceVpcEIPV1Delete absentRemote okConfig exampleData ⟨(), []⟩).out = .nil
    ∧ (resourceVpcEIPV1Delete absentRemote okConfig exampleData ⟨(), []⟩).d.Id = ""
    ∧ (resourceVpcEIPV1Delete absentRemote okConfig exampleData ⟨(), []⟩).world.calls
        = [.eipsGet "eip-1"] :=
  (Delete_absent absentRemote okConfig exampleData ⟨(), []⟩ "eip-1" "Resource not found").2
    ⟨"https://vpc.region.example.com/v1/tenant"⟩ rfl (by decide) rfl

/-- Once the EIP is allocated, the result of `resourceVpcEIPV1Create` is that of the Read made
after the wait; the value returned by the wait is not consulted. -/
theorem Create_result_after_apply (R : Remote W) (config : Config) (d : ResourceData)
    (s : World W) (c : ServiceClient) (opts : EIPCreateOpts) (eIP : PublicIp)
    (hc : config.vpcV1Client = .ok c) (ho : createOpts d = .ok opts)
    (ha : (R.apply s.remote opts).1 = .ok eIP) :
    resourceVpcEIPV1Create R config d s
      = resourceVpcEIPV1Read R config (d.SetId eIP.ID)
          (WaitForState (createStateConf d) (waitForEIPActive R eIP.ID)
            (eipsApply R opts s).2).2 := by
  simp [resourceVpcEIPV1Create, hc, ho, eipsApply, ha]

set_option maxRecDepth 100000 in
/-- C1 fails on the code: the EIP is allocated, the poller's wait ends with an error (a timeout
when the EIP never reports ACTIVE or DOWN; the error of a failed status fetch), and
`resourceVpcEIPV1Create` nevertheless returns no error because the trailing Read succeeds. -/
theorem Create_masks_poll_failure :
    createOpts exampleData = .ok exampleCreateOpts
    ∧ (eipsApply (steadyRemote "PENDING_CREATE") exampleCreateOpts ⟨(), []⟩).1
        = .ok (exampleEip "PENDING_CREATE")
    ∧ (WaitForState (createStateConf exampleData)
        (waitForEIPActive (steadyRemote "PENDING_CREATE") "eip-1")
        (eipsApply (steadyRemote "PENDING_CREATE") exampleCreateOpts ⟨(), []⟩).2).1
        = .error .TimeoutError
    ∧ (resourceVpcEIPV1Create (steadyRemote "PENDING_CREATE") okConfig exampleData ⟨(), []⟩).out
        = .nil
    ∧ (WaitForState (createStateConf exampleData) (waitForEIPActive flakyRemote "eip-1")
        (eipsApply flakyRemote exampleCreateOpts ⟨0, []⟩).2).1
        = .error (.errorString "503 service unavailable")
    ∧ (resourceVpcEIPV1Create flakyRemote okConfig exampleData ⟨0, []⟩).out = .nil := by
  decide

/-- C10 fails on the code for Delete: the deadline of the poller started by
`resourceVpcEIPV1Delete` is the create timeout (as is that of Create).  Changing only the create
timeout changes the deadline of a Delete and changing only the delete timeout does not: with a
create timeout of 3 s and a delete timeout of 600 s a Delete of an absent EIP times out before
its first tick, and with the two swapped it succeeds. -/
theorem Delete_deadline_is_create_timeout :
    (∀ d : ResourceData, (deleteStateConf d).Timeout = d.timeouts.Create)
    ∧ (∀ d : ResourceData, (createStateConf d).Timeout = d.timeouts.Create)
    ∧ (deleteStateConf { exampleData with timeouts := { Create := 600, Delete := 600 } }).Timeout
        = 600
    ∧ (deleteStateConf { exampleData with timeouts := { Create := 3, Delete := 600 } }).Timeout
        = 3
    ∧ (deleteStateConf { exampleData with timeouts := { Create := 600, Delete := 3 } }).Timeout
        = 600
    ∧ (resourceVpcEIPV1Delete absentRemote okConfig
        { exampleData with timeouts := { Create := 3, Delete := 600 } } ⟨(), []⟩).out
        = .error (.errorString "Error deleting EIP: timeout while waiting for the expected state")
    ∧ (resourceVpcEIPV1Delete absentRemote okConfig
        { exampleData with timeouts := { Create := 600, Delete := 3 } } ⟨(), []⟩).out = .nil := by
  refine ⟨fun _ => rfl, fun _ => rfl, ?_⟩
  decide

/-- A nil first element (a block with no field set) makes the type assertion of the option
mapper fault. -/
theorem optionMapper_nil_element (d : ResourceData) :
    (∀ rest, d.GetPublicip = none :: rest → resourcePublicIP d = .fault .nilInterfaceConversion)
    ∧ (∀ rest, d.GetBandwidth = none :: rest →
        resourceBandWidth d = .fault .nilInterfaceConversion) := by
  constructor
  · intro rest h; simp [resourcePublicIP, h, firstMap, index0, assertMap]
  · intro rest h; simp [resourceBandWidth, h, firstMap, index0, assertMap]

/-- C3 as stated fails, in two ways.  A record whose publicip list is non-empty but holds the
nil element (a block with no field set) has no create payload: the mapper faults on the type
assertion.  And no re-extraction from the create payload recovers every field of both first
entries, because two records that differ only in `port_id` have the same payload. -/
theorem createOpts_forgets_port_id :
    (nilBlockData.GetPublicip ≠ [] ∧ nilBlockData.GetBandwidth ≠ []
      ∧ resourcePublicIP nilBlockData = .fault .nilInterfaceConversion
      ∧ createOpts nilBlockData = .fault .nilInterfaceConversion)
    ∧ ¬ ∃ extract : EIPCreateOpts → PublicIPBlock × BandwidthBlock,
      ∀ (d : ResourceData) (ip : PublicIPBlock) (ips : List (Option PublicIPBlock))
        (bw : BandwidthBlock) (bws : List (Option BandwidthBlock)) (opts : EIPCreateOpts),
        d.GetPublicip = some ip :: ips → d.GetBandwidth = some bw :: bws →
        createOpts d = .ok opts → extract opts = (ip, bw) := by
  refine ⟨by decide, ?_⟩
  rintro ⟨extract, h⟩
  have h1 := h exampleData examplePublicIP [] exampleBandwidth [] exampleCreateOpts rfl rfl rfl
  have h2 := h otherPortData { examplePublicIP with port_id := "port-b" } []
    exampleBandwidth [] exampleCreateOpts rfl rfl rfl
  rw [h1] at h2
  exact absurd h2 (by decide)

/-- C3 (amended): for a record whose publicip list and bandwidth list each start with a block,
the create payload exists, its fields are those of the first entries (Type = type,
Address = ip_address; Name = name, Size = size, ShareType = share_type,
ChargeMode = charge_mode), and re-extraction recovers the type and ip_address of the publicip
entry and the whole bandwidth entry. -/
theorem createOpts_roundtrip (d : ResourceData) (ip : PublicIPBlock)
    (ips : List (Option PublicIPBlock)) (bw : BandwidthBlock)
    (bws : List (Option BandwidthBlock))
    (hip : d.GetPublicip = some ip :: ips) (hbw : d.GetBandwidth = some bw :: bws) :
    ∃ opts : EIPCreateOpts, createOpts d = .ok opts
      ∧ resourcePublicIP d = .ok opts.ApplyOpts.IP
      ∧ resourceBandWidth d = .ok opts.ApplyOpts.Bandwidth
      ∧ opts.ApplyOpts.IP.Type_ = ip.type
      ∧ opts.ApplyOpts.IP.Address = ip.ip_address
      ∧ opts.ApplyOpts.Bandwidth.Name = bw.name
      ∧ opts.ApplyOpts.Bandwidth.Size = bw.size
      ∧ opts.ApplyOpts.Bandwidth.ShareType = bw.share_type
      ∧ opts.ApplyOpts.Bandwidth.ChargeMode = bw.charge_mode
      ∧ reextractPublicIP opts.ApplyOpts.IP = (ip.type, ip.ip_address)
      ∧ reextractBandwidth opts.ApplyOpts.Bandwidth = bw := by
  simp [createOpts, resourcePublicIP, resourceBandWidth, hip, hbw, firstMap, index0, assertMap,
    reextractPublicIP, reextractBandwidth]

/-- C3 (amended) at the bandwidth example of the spec. -/
theorem createOpts_roundtrip_witness :
    ∃ opts : EIPCreateOpts, createOpts exampleData = .ok opts
      ∧ opts.ApplyOpts.Bandwidth
          = { Name := "eip-bw", Size := 10, ShareType := "PER", ChargeMode := "" }
      ∧ reextractBandwidth opts.ApplyOpts.Bandwidth
          = { name := "eip-bw", size := 10, share_type := "PER", charge_mode := "" } := by
  obtain ⟨opts, h1, _, h3, _, _, _, _, _, _, _, h11⟩ :=
    createOpts_roundtrip exampleData examplePublicIP [] exampleBandwidth [] rfl rfl
  refine ⟨opts, h1, ?_, h11⟩
  have : resourceBandWidth exampleData
      = .ok { Name := "eip-bw", Size := 10, ShareType := "PER", ChargeMode := "" } := rfl
  rw [this] at h3
  exact (Eval.ok.inj h3).symm

/-- C6 as stated fails: with a poller deadline of 3 s, which ends before the 5 s initial delay,
a Delete of an absent EIP makes no tick, returns the timeout error and keeps the resource ID. -/
theorem Delete_absent_before_first_tick :
    (absentRemote.get () shortDeadlineData.Id).1 = .error (.ErrDefault404 "Resource not found")
    ∧ (resourceVpcEIPV1Delete absentRemote okConfig shortDeadlineData ⟨(), []⟩).out
        = .error (Errorf "Error deleting EIP" .TimeoutError)
    ∧ (resourceVpcEIPV1Delete absentRemote okConfig shortDeadlineData ⟨(), []⟩).out ≠ .nil
    ∧ (resourceVpcEIPV1Delete absentRemote okConfig shortDeadlineData ⟨(), []⟩).d.Id = "eip-1"
    ∧ (resourceVpcEIPV1Delete absentRemote okConfig shortDeadlineData ⟨(), []⟩).world.calls
        = [] := by
  decide

/-- Unfolding of one tick of the wait loop. -/
theorem pollLoop_succ (conf : StateChangeConf) (refresh : World W → RefreshResult × World W)
    (fuel now : Nat) (s : World W) :
    pollLoop conf refresh (fuel + 1) now s =
      if conf.Timeout ≤ now then (.error .TimeoutError, s)
      else
        match (refresh s).1.err with
        | some err => (.error err, (refresh s).2)
        | none =>
          if (refresh s).1.label ∈ conf.Target then
            (.ok (refresh s).1.snapshot, (refresh s).2)
          else pollLoop conf refresh fuel (now + conf.MinTimeout) (refresh s).2 := rfl

/-- With a minimum interval of at least one second, one more unit of fuel changes nothing once
the fuel covers the time left to the deadline. -/
theorem pollLoop_fuel (conf : StateChangeConf) (refresh : World W → RefreshResult × World W)
    (hmin : 1 ≤ conf.MinTimeout) :
    ∀ (fuel now : Nat) (s : World W), conf.Timeout ≤ now + fuel →
      pollLoop conf refresh (fuel + 1) now s = pollLoop conf refresh fuel now s := by
  intro fuel
  induction fuel with
  | zero =>
    intro now s h
    have : conf.Timeout ≤ now := by omega
    simp [pollLoop, this]
  | succ n ih =>
    intro now s h
    rw [pollLoop_succ conf refresh (n + 1) now s, pollLoop_succ conf refresh n now s,
      ih (now + conf.MinTimeout) (refresh s).2 (by omega)]

/-- The tick bound of `WaitForState` is never the binding constraint: any larger bound gives
the same result, so every wait ends by a target label, an error or the deadline. -/
theorem WaitForState_fuel (conf : StateChangeConf) (refresh : World W → RefreshResult × World W)
    (hmin : 1 ≤ conf.MinTimeout) (extra : Nat) (s : World W) :
    pollLoop conf refresh (conf.Timeout + extra) conf.Delay s = WaitForState conf refresh s := by
  induction extra with
  | zero => rfl
  | succ n ih =>
    rw [← ih]
    exact pollLoop_fuel conf refresh hmin (conf.Timeout + n) conf.Delay s (by omega)

end VpcEip
